/-
A verification development for the flight-offer aggregation pipeline:
shallow embedding of the data model and the pipeline services
(stop filtering, ranking, deduplication, currency normalization,
query hashing, connector orchestration, caching, search worker),
together with theorems settling the specification claims.

Modelling conventions:
* Python `Decimal` money amounts are embedded as `ℚ` (exact decimal
  arithmetic; `quantize` is an explicit rounding function).
* Timezone-aware datetimes appear in the claims only through their
  minute-precision ISO rendering used by the dedup key; they are
  embedded as the rendered `String` directly.
* `str.upper` / `str.lower` / `str.strip` are embedded as the character-wise
  functions `pyUpper` / `pyLower` / `pyStrip` below.
* Cryptographic digests (`sha1`, `sha256`) are modelled as injective
  encodings: the digest of a canonical serialization is identified with
  the canonical serialization itself.
-/
import Mathlib

/-! ### Python string primitives -/

/-- Python `str.upper()`, character-wise. -/
def pyUpper (s : String) : String := String.mk (s.data.map Char.toUpper)

/-- Python `str.lower()`, character-wise. -/
def pyLower (s : String) : String := String.mk (s.data.map Char.toLower)

/-- Python `str.strip()`: drop leading and trailing whitespace. -/
def pyStrip (s : String) : String :=
  String.mk (((s.data.dropWhile Char.isWhitespace).reverse.dropWhile
    Char.isWhitespace).reverse)

/-! ### Data model (app/schemas.py, app/connectors/base.py) -/

/-- `TripType` enum from app/schemas.py. -/
inductive TripType
  | one_way
  | round_trip
deriving DecidableEq, Repr

/-- `CabinClass` enum from app/schemas.py. -/
inductive CabinClass
  | economy
  | premium_economy
  | business
  | first
deriving DecidableEq, Repr

/-- `StopPreference` enum from app/schemas.py (with the backward-compatible
`multiple_stops` member). -/
inductive StopPreference
  | any
  | non_stop
  | with_stops
  | multiple_stops
deriving DecidableEq, Repr

/-- `SearchStatus` enum from app/schemas.py. -/
inductive SearchStatus
  | queued
  | running
  | completed
  | failed
deriving DecidableEq, Repr

/-- `RawFlightOffer` dataclass from app/connectors/base.py.
`departure_at` / `arrival_at` hold the minute-precision ISO rendering of the
timezone-aware instants (the only view of them the verified claims use);
`raw_payload` is the opaque provider payload, embedded as its JSON text. -/
structure RawFlightOffer where
  source : String
  airline : String
  flight_numbers : List String
  origin : String
  destination : String
  departure_at : String
  arrival_at : String
  stops : Nat
  duration_minutes : Nat
  cabin : Option String
  fare_brand : Option String
  baggage : Option String
  fare_rules : Option String
  base_price : Option ℚ
  taxes : Option ℚ
  fees : Option ℚ
  total_price : ℚ
  currency : String
  booking_url : String
  raw_payload : String
  deep_link_valid : Bool := false
deriving DecidableEq, Repr

/-! ### Filter stage (app/services/stops.py) -/

/-- `filter_offers_by_stops` from app/services/stops.py: `non_stop` keeps
`stops == 0`, `multiple_stops` keeps `stops >= 1`, anything else falls
through unchanged. -/
def filter_offers_by_stops (offers : List RawFlightOffer)
    (stop_preference : StopPreference) : List RawFlightOffer :=
  if stop_preference = StopPreference.non_stop then
    offers.filter (fun offer => offer.stops = 0)
  else if stop_preference = StopPreference.multiple_stops then
    offers.filter (fun offer => offer.stops ≥ 1)
  else
    offers

/-! ### Ranking stage (app/services/ranking.py) -/

/-- The sort key of `rank_offers`: the tuple
`(item.total_price, item.stops, item.duration_minutes)`. -/
def rankKey (offer : RawFlightOffer) : ℚ × ℕ × ℕ :=
  (offer.total_price, offer.stops, offer.duration_minutes)

/-- Lexicographic order on rank-key tuples, as Python compares tuples. -/
def tupleLe (x y : ℚ × ℕ × ℕ) : Prop :=
  x.1 < y.1 ∨ (x.1 = y.1 ∧ (x.2.1 < y.2.1 ∨ (x.2.1 = y.2.1 ∧ x.2.2 ≤ y.2.2)))

/-- Comparison used by `sorted(offers, key=...)`. -/
def rankLe (a b : RawFlightOffer) : Prop := tupleLe (rankKey a) (rankKey b)

instance : DecidableRel rankLe := by
  intro a b
  unfold rankLe tupleLe
  infer_instance

theorem tupleLe_refl (x : ℚ × ℕ × ℕ) : tupleLe x x :=
  Or.inr ⟨rfl, Or.inr ⟨rfl, le_refl _⟩⟩

theorem tupleLe_of_eq {x y : ℚ × ℕ × ℕ} (h : x = y) : tupleLe x y :=
  h ▸ tupleLe_refl x

theorem tupleLe_trans {x y z : ℚ × ℕ × ℕ} (hxy : tupleLe x y) (hyz : tupleLe y z) :
    tupleLe x z := by
  rcases hxy with h1 | ⟨e1, h1⟩
  · rcases hyz with h2 | ⟨e2, _⟩
    · exact Or.inl (lt_trans h1 h2)
    · exact Or.inl (e2 ▸ h1)
  · rcases hyz with h2 | ⟨e2, h2⟩
    · exact Or.inl (e1 ▸ h2)
    · refine Or.inr ⟨e1.trans e2, ?_⟩
      rcases h1 with h1 | ⟨f1, h1⟩
      · rcases h2 with h2 | ⟨f2, _⟩
        · exact Or.inl (lt_trans h1 h2)
        · exact Or.inl (f2 ▸ h1)
      · rcases h2 with h2 | ⟨f2, h2⟩
        · exact Or.inl (f1 ▸ h2)
        · exact Or.inr ⟨f1.trans f2, le_trans h1 h2⟩

theorem tupleLe_total (x y : ℚ × ℕ × ℕ) : tupleLe x y ∨ tupleLe y x := by
  rcases lt_trichotomy x.1 y.1 with h | h | h
  · exact Or.inl (Or.inl h)
  · rcases lt_trichotomy x.2.1 y.2.1 with h2 | h2 | h2
    · exact Or.inl (Or.inr ⟨h, Or.inl h2⟩)
    · rcases le_total x.2.2 y.2.2 with h3 | h3
      · exact Or.inl (Or.inr ⟨h, Or.inr ⟨h2, h3⟩⟩)
      · exact Or.inr (Or.inr ⟨h.symm, Or.inr ⟨h2.symm, h3⟩⟩)
    · exact Or.inr (Or.inr ⟨h.symm, Or.inl h2⟩)
  · exact Or.inr (Or.inl h)

instance : IsTrans RawFlightOffer rankLe :=
  ⟨fun _ _ _ hab hbc => tupleLe_trans hab hbc⟩

instance : IsTotal RawFlightOffer rankLe :=
  ⟨fun a b => tupleLe_total (rankKey a) (rankKey b)⟩

/-- `rank_offers` from app/services/ranking.py: Python's stable `sorted`
with the `(total_price, stops, duration_minutes)` key, embedded as a stable
insertion sort under the lexicographic key order. -/
def rank_offers (offers : List RawFlightOffer) : List RawFlightOffer :=
  List.insertionSort rankLe offers

theorem filter_orderedInsert_rankKey_eq {k : ℚ × ℕ × ℕ} (a : RawFlightOffer)
    (ha : rankKey a = k) (l : List RawFlightOffer) :
    (List.orderedInsert rankLe a l).filter (fun o => rankKey o = k)
      = a :: l.filter (fun o => rankKey o = k) := by
  induction l with
  | nil => simp [List.orderedInsert, ha]
  | cons b l ih =>
    by_cases hab : rankLe a b
    · simp [List.orderedInsert, hab, ha]
    · have hbk : ¬ rankKey b = k := by
        intro hbk
        exact hab (tupleLe_of_eq (ha.trans hbk.symm))
      simp [List.orderedInsert, hab, hbk, ih]

theorem filter_orderedInsert_rankKey_ne {k : ℚ × ℕ × ℕ} (a : RawFlightOffer)
    (ha : ¬ rankKey a = k) (l : List RawFlightOffer) :
    (List.orderedInsert rankLe a l).filter (fun o => rankKey o = k)
      = l.filter (fun o => rankKey o = k) := by
  induction l with
  | nil => simp [List.orderedInsert, ha]
  | cons b l ih =>
    by_cases hab : rankLe a b
    · simp [List.orderedInsert, hab, ha]
    · by_cases hbk : rankKey b = k <;>
        simp [List.orderedInsert, hab, hbk, ih]

theorem filter_insertionSort_rankKey (l : List RawFlightOffer) (k : ℚ × ℕ × ℕ) :
    (List.insertionSort rankLe l).filter (fun o => rankKey o = k)
      = l.filter (fun o => rankKey o = k) := by
  induction l with
  | nil => rfl
  | cons a l ih =>
    by_cases ha : rankKey a = k
    · rw [List.insertionSort, filter_orderedInsert_rankKey_eq a ha, ih]
      simp [ha]
    · rw [List.insertionSort, filter_orderedInsert_rankKey_ne a ha, ih]
      simp [ha]

/-! ### Theorems: ranking stage -/

/-- C2: `rank_offers` returns a permutation of its input, sorted ascending
by the lexicographic order on `(total_price, stops, duration_minutes)`, and
the sort is stable: for every key value, the sublist of offers carrying that
exact key is unchanged (so equal-key offers retain their relative input
order). -/
theorem rank_offers_stable_sorted_perm (offers : List RawFlightOffer) :
    (rank_offers offers).Perm offers
    ∧ List.Sorted rankLe (rank_offers offers)
    ∧ ∀ k : ℚ × ℕ × ℕ,
        (rank_offers offers).filter (fun o => rankKey o = k)
          = offers.filter (fun o => rankKey o = k) :=
  ⟨List.perm_insertionSort rankLe offers,
   List.sorted_insertionSort rankLe offers,
   fun k => filter_insertionSort_rankKey offers k⟩

/-! ### Dedup stage (app/services/dedup.py) -/

/-- Ordered association-list lookup, the embedding of Python dict lookup
(`selected.get(dedup_key)`): dicts are modelled as insertion-ordered
association lists. -/
def lookupAssoc {α : Type} : List (String × α) → String → Option α
  | [], _ => none
  | (key, value) :: rest, wanted =>
      if key = wanted then some value else lookupAssoc rest wanted

/-- In-place value update of an ordered association list, the embedding of
Python dict assignment to an existing key (the key keeps its insertion
position). -/
def updateAssoc {α : Type} : List (String × α) → String → α → List (String × α)
  | [], _, _ => []
  | (key, value) :: rest, wanted, replacement =>
      if key = wanted then (key, replacement) :: rest
      else (key, value) :: updateAssoc rest wanted replacement

/-- Python `sorted` on a list of strings (ascending lexicographic). -/
def sortedStrings (l : List String) : List String :=
  List.insertionSort (fun a b : String => a ≤ b) l

/-- `build_dedup_key` from app/services/dedup.py: the canonical identity
payload `origin|destination|departure|arrival|airline|flights|cabin`
(upper-cased text fields, sorted upper-cased flight numbers). The `sha1`
digest of this payload is modelled as the payload itself (digest treated as
an injective encoding); `departure_at`/`arrival_at` already hold their
minute-precision ISO rendering. -/
def build_dedup_key (offer : RawFlightOffer) : String :=
  String.intercalate "|"
    [pyUpper offer.origin,
     pyUpper offer.destination,
     offer.departure_at,
     offer.arrival_at,
     pyUpper offer.airline,
     String.intercalate "," (sortedStrings (offer.flight_numbers.map pyUpper)),
     pyUpper (offer.cabin.getD "")]

/-- One iteration of the `deduplicate_offers` loop on the insertion-ordered
dict state. -/
def dedupStep (selected : List (String × RawFlightOffer))
    (offer : RawFlightOffer) : List (String × RawFlightOffer) :=
  match lookupAssoc selected (build_dedup_key offer) with
  | none => selected ++ [(build_dedup_key offer, offer)]
  | some current =>
    if offer.total_price < current.total_price then
      updateAssoc selected (build_dedup_key offer) offer
    else if offer.total_price = current.total_price
        ∧ offer.duration_minutes < current.duration_minutes then
      updateAssoc selected (build_dedup_key offer) offer
    else
      selected

/-- `deduplicate_offers` from app/services/dedup.py:
`list(selected.values())` after folding the loop body over the offers. -/
def deduplicate_offers (offers : List RawFlightOffer) : List RawFlightOffer :=
  (offers.foldl dedupStep []).map Prod.snd

/-- The claim's survivor-selection rule between the current survivor and a
challenger: strictly lower `total_price` wins; on an exact price tie,
strictly lower `duration_minutes` wins; otherwise the current (first-seen)
survivor is kept. -/
def betterOffer (current offer : RawFlightOffer) : RawFlightOffer :=
  if offer.total_price < current.total_price then offer
  else if offer.total_price = current.total_price
      ∧ offer.duration_minutes < current.duration_minutes then offer
  else current

/-- The claim's specification of deduplication, written from its words: one
survivor per dedup identity key, listed in insertion order of the first
occurrence of each key, the survivor being the left fold of the
survivor-selection rule over the offers sharing that key. -/
def dedupSpec : List RawFlightOffer → List RawFlightOffer
  | [] => []
  | offer :: rest =>
    ((rest.filter (fun x => build_dedup_key x = build_dedup_key offer)).foldl
        betterOffer offer)
      :: dedupSpec (rest.filter (fun x => ¬ build_dedup_key x = build_dedup_key offer))
termination_by l => l.length
decreasing_by
  simp only [List.length_cons]
  exact Nat.lt_succ_of_le (List.length_filter_le _ _)

theorem betterOffer_key {k : String} {c o : RawFlightOffer}
    (hc : build_dedup_key c = k) (ho : build_dedup_key o = k) :
    build_dedup_key (betterOffer c o) = k := by
  unfold betterOffer
  split_ifs <;> assumption

theorem dedupStep_cons_ne (k : String) (c : RawFlightOffer)
    (m : List (String × RawFlightOffer)) (o : RawFlightOffer)
    (ho : ¬ build_dedup_key o = k) :
    dedupStep ((k, c) :: m) o = (k, c) :: dedupStep m o := by
  have hk : ¬ k = build_dedup_key o := fun h => ho h.symm
  unfold dedupStep
  simp only [lookupAssoc, if_neg hk]
  cases lookupAssoc m (build_dedup_key o) with
  | none => simp
  | some current =>
    simp only [updateAssoc, if_neg hk]
    split_ifs <;> rfl

theorem dedupStep_cons_eq (k : String) (c : RawFlightOffer)
    (m : List (String × RawFlightOffer)) (o : RawFlightOffer)
    (ho : build_dedup_key o = k) :
    dedupStep ((k, c) :: m) o = (k, betterOffer c o) :: m := by
  have hk : k = build_dedup_key o := ho.symm
  unfold dedupStep betterOffer
  simp only [lookupAssoc, if_pos hk, updateAssoc]
  split_ifs <;> rfl

theorem mem_updateAssoc_fst {α : Type} (m : List (String × α)) (wanted : String)
    (replacement : α) :
    ∀ p ∈ updateAssoc m wanted replacement, ∃ q ∈ m, p.1 = q.1 := by
  induction m with
  | nil => intro p hp; cases hp
  | cons h t ih =>
    intro p hp
    obtain ⟨key, value⟩ := h
    by_cases hk : key = wanted
    · simp only [updateAssoc, if_pos hk] at hp
      rcases List.mem_cons.mp hp with h1 | h1
      · exact ⟨(key, value), List.mem_cons_self _ _, by simp [h1]⟩
      · exact ⟨p, List.mem_cons_of_mem _ h1, rfl⟩
    · simp only [updateAssoc, if_neg hk] at hp
      rcases List.mem_cons.mp hp with h1 | h1
      · exact ⟨(key, value), List.mem_cons_self _ _, by simp [h1]⟩
      · obtain ⟨q, hq, hpq⟩ := ih p h1
        exact ⟨q, List.mem_cons_of_mem _ hq, hpq⟩

theorem dedupStep_lookup_none (m : List (String × RawFlightOffer))
    (o : RawFlightOffer) (h : lookupAssoc m (build_dedup_key o) = none) :
    dedupStep m o = m ++ [(build_dedup_key o, o)] := by
  unfold dedupStep
  rw [h]

theorem dedupStep_lookup_some (m : List (String × RawFlightOffer))
    (o current : RawFlightOffer)
    (h : lookupAssoc m (build_dedup_key o) = some current) :
    dedupStep m o =
      if o.total_price < current.total_price then
        updateAssoc m (build_dedup_key o) o
      else if o.total_price = current.total_price
          ∧ o.duration_minutes < current.duration_minutes then
        updateAssoc m (build_dedup_key o) o
      else m := by
  unfold dedupStep
  rw [h]

theorem dedupStep_keys_ne {k : String} (m : List (String × RawFlightOffer))
    (o : RawFlightOffer) (hm : ∀ p ∈ m, p.1 ≠ k)
    (ho : ¬ build_dedup_key o = k) :
    ∀ p ∈ dedupStep m o, p.1 ≠ k := by
  intro p hp
  rcases hlook : lookupAssoc m (build_dedup_key o) with _ | current
  · rw [dedupStep_lookup_none m o hlook] at hp
    rcases List.mem_append.mp hp with h1 | h1
    · exact hm p h1
    · have h2 : p = (build_dedup_key o, o) := by simpa using h1
      rw [h2]
      exact ho
  · rw [dedupStep_lookup_some m o current hlook] at hp
    split_ifs at hp
    · obtain ⟨q, hq, hpq⟩ := mem_updateAssoc_fst m (build_dedup_key o) o p hp
      exact hpq ▸ hm q hq
    · obtain ⟨q, hq, hpq⟩ := mem_updateAssoc_fst m (build_dedup_key o) o p hp
      exact hpq ▸ hm q hq
    · exact hm p hp

theorem foldl_dedupStep_cons (l : List RawFlightOffer) :
    ∀ (k : String) (c : RawFlightOffer) (m : List (String × RawFlightOffer)),
    build_dedup_key c = k →
    (∀ p ∈ m, p.1 ≠ k) →
    l.foldl dedupStep ((k, c) :: m)
      = (k, (l.filter (fun x => build_dedup_key x = k)).foldl betterOffer c)
        :: (l.filter (fun x => ¬ build_dedup_key x = k)).foldl dedupStep m := by
  induction l with
  | nil =>
    intro k c m _ _
    simp
  | cons o l ih =>
    intro k c m hc hm
    by_cases ho : build_dedup_key o = k
    · rw [List.foldl_cons, dedupStep_cons_eq k c m o ho,
        ih k (betterOffer c o) m (betterOffer_key hc ho) hm]
      simp [ho]
    · rw [List.foldl_cons, dedupStep_cons_ne k c m o ho,
        ih k c (dedupStep m o) hc (dedupStep_keys_ne m o hm ho)]
      simp [ho]

theorem dedup_foldl_spec_aux :
    ∀ (n : ℕ) (offers : List RawFlightOffer), offers.length ≤ n →
      deduplicate_offers offers = dedupSpec offers := by
  intro n
  induction n with
  | zero =>
    intro offers h
    rw [Nat.le_zero, List.length_eq_zero] at h
    subst h
    simp [deduplicate_offers, dedupSpec]
  | succ n ih =>
    intro offers h
    cases offers with
    | nil => simp [deduplicate_offers, dedupSpec]
    | cons o l =>
      have h0 : dedupStep [] o = [(build_dedup_key o, o)] := rfl
      have hlen : (l.filter (fun x => ¬ build_dedup_key x = build_dedup_key o)).length ≤ n := by
        have h1 := List.length_filter_le
          (fun x => decide ¬ build_dedup_key x = build_dedup_key o) l
        have h2 : l.length ≤ n := Nat.le_of_succ_le_succ h
        exact le_trans h1 h2
      calc deduplicate_offers (o :: l)
          = ((o :: l).foldl dedupStep []).map Prod.snd := rfl
        _ = (l.foldl dedupStep [(build_dedup_key o, o)]).map Prod.snd := by
            rw [List.foldl_cons, h0]
        _ = ((build_dedup_key o,
              (l.filter (fun x => build_dedup_key x = build_dedup_key o)).foldl
                betterOffer o)
            :: (l.filter (fun x => ¬ build_dedup_key x = build_dedup_key o)).foldl
                dedupStep []).map Prod.snd := by
            rw [foldl_dedupStep_cons l (build_dedup_key o) o [] rfl (by simp)]
        _ = (l.filter (fun x => build_dedup_key x = build_dedup_key o)).foldl
              betterOffer o
            :: deduplicate_offers
                (l.filter (fun x => ¬ build_dedup_key x = build_dedup_key o)) := rfl
        _ = (l.filter (fun x => build_dedup_key x = build_dedup_key o)).foldl
              betterOffer o
            :: dedupSpec (l.filter (fun x => ¬ build_dedup_key x = build_dedup_key o)) := by
            rw [ih _ hlen]
        _ = dedupSpec (o :: l) := by rw [dedupSpec]

/-! ### Theorems: dedup stage -/

/-- C1: `deduplicate_offers` computes exactly the claim's specification
`dedupSpec`: one survivor per dedup identity key, in insertion order of the
first occurrence of each winning key, where among offers sharing a key a
strictly lower `total_price` replaces the current survivor, an exact price
tie with strictly lower `duration_minutes` replaces it, and otherwise the
first-seen offer is kept (a left fold of the survivor rule over the
same-key offers in input order). -/
theorem deduplicate_offers_eq_dedupSpec (offers : List RawFlightOffer) :
    deduplicate_offers offers = dedupSpec offers :=
  dedup_foldl_spec_aux offers.length offers (le_refl _)

/-! ### Query model and validation (app/schemas.py) -/

/-- `SearchCreateRequest` from app/schemas.py. Dates are embedded as day
ordinals (only their equality and order are observable). -/
structure SearchCreateRequest where
  origin : String
  destination : String
  departure_date : ℕ
  return_date : Option ℕ
  trip_type : TripType
  adults : ℕ
  children : ℕ
  infants : ℕ
  cabin : CabinClass
  currency : String
  stop_preference : StopPreference
  sources : Option (List String)
deriving DecidableEq, Repr

/-- Pydantic validation of a 3-letter code field: the
`min_length=3, max_length=3` constraint followed by the
`value.strip().upper()` field validator (used for `origin`, `destination`
and `currency`). -/
def validateCode3 (value : String) : Option String :=
  if value.length = 3 then some (pyUpper (pyStrip value)) else none

/-- The `_normalize_sources` field validator (mode `before`) for a list (or
absent) value: drop whitespace-only items, then `strip().lower()` each. -/
def normalizeSourceList (value : Option (List String)) : Option (List String) :=
  value.map (fun items =>
    (items.filter (fun item => ¬ pyStrip item = "")).map
      (fun item => pyLower (pyStrip item)))

/-- Pydantic validation of `SearchCreateRequest`: field constraints, the
per-field validators, and the `_validate_dates` model validator. `none`
models a `ValidationError`. -/
def validateSearchCreateRequest (raw : SearchCreateRequest) :
    Option SearchCreateRequest := do
  let origin ← validateCode3 raw.origin
  let destination ← validateCode3 raw.destination
  let currency ← validateCode3 raw.currency
  if ¬ (1 ≤ raw.adults ∧ raw.adults ≤ 9) then none
  else if ¬ raw.children ≤ 9 then none
  else if ¬ raw.infants ≤ 9 then none
  else
    let query : SearchCreateRequest :=
      { raw with origin := origin, destination := destination,
                 currency := currency,
                 sources := normalizeSourceList raw.sources }
    if query.trip_type = TripType.round_trip ∧ query.return_date = none then none
    else
      match query.return_date with
      | some r => if r < query.departure_date then none else some query
      | none => some query

/-! ### Cache-key builder (app/services/query_hash.py) -/

/-- The canonical payload serialized and hashed by `build_query_hash`: the
`model_dump(mode="json")` of the query with the `sources` entry replaced by
`sorted([source.lower() for source in payload.get("sources") or []])`. -/
structure QueryHashPayload where
  origin : String
  destination : String
  departure_date : ℕ
  return_date : Option ℕ
  trip_type : TripType
  adults : ℕ
  children : ℕ
  infants : ℕ
  cabin : CabinClass
  currency : String
  stop_preference : StopPreference
  sources : List String
deriving DecidableEq, Repr

/-- `build_query_hash` from app/services/query_hash.py. The `sha256` of the
deterministic sorted-key JSON serialization is modelled as the canonical
payload itself (serialization plus digest treated as an injective
encoding), so hash equality is payload equality. -/
def build_query_hash (query : SearchCreateRequest) : QueryHashPayload :=
  { origin := query.origin, destination := query.destination,
    departure_date := query.departure_date, return_date := query.return_date,
    trip_type := query.trip_type, adults := query.adults,
    children := query.children, infants := query.infants,
    cabin := query.cabin, currency := query.currency,
    stop_preference := query.stop_preference,
    sources := sortedStrings ((query.sources.getD []).map pyLower) }

/-- `cache_key_for_query_hash` from app/services/query_hash.py
(`_CACHE_KEY_VERSION = "v3"`), applied to the stored hex digest. -/
def cache_key_for_query_hash (query_hash : String) : String :=
  "search-result:v3:" ++ query_hash

instance : IsTotal String (fun a b : String => a ≤ b) :=
  ⟨fun a b => le_total a b⟩

instance : IsTrans String (fun a b : String => a ≤ b) :=
  ⟨fun _ _ _ h1 h2 => le_trans h1 h2⟩

instance : IsAntisymm String (fun a b : String => a ≤ b) :=
  ⟨fun _ _ h1 h2 => le_antisymm h1 h2⟩

theorem sortedStrings_eq_iff_perm (l1 l2 : List String) :
    sortedStrings l1 = sortedStrings l2 ↔ l1.Perm l2 := by
  constructor
  · intro h
    have h1 : l1.Perm (sortedStrings l1) :=
      (List.perm_insertionSort (fun a b : String => a ≤ b) l1).symm
    have h2 : (sortedStrings l2).Perm l2 :=
      List.perm_insertionSort (fun a b : String => a ≤ b) l2
    rw [h] at h1
    exact h1.trans h2
  · intro h
    refine List.eq_of_perm_of_sorted (r := fun a b : String => a ≤ b) ?_ ?_ ?_
    · exact (List.perm_insertionSort _ l1).trans
        (h.trans (List.perm_insertionSort _ l2).symm)
    · exact List.sorted_insertionSort _ l1
    · exact List.sorted_insertionSort _ l2

/-! ### Theorems: cache-key builder -/

/-- C3 counterexample input: a valid query requesting no source list. -/
def querySourcesNone : SearchCreateRequest :=
  { origin := "KUL", destination := "BKK", departure_date := 20260320,
    return_date := some 20260325, trip_type := TripType.round_trip,
    adults := 1, children := 0, infants := 0, cabin := CabinClass.economy,
    currency := "MYR", stop_preference := StopPreference.any, sources := none }

/-- C3 counterexample input: the same query with an explicitly empty source
list. -/
def querySourcesEmpty : SearchCreateRequest :=
  { querySourcesNone with sources := some [] }

/-- C3 is false as stated: two valid queries that differ in an observable
field other than casing or source ordering — an absent source list versus
an explicitly empty one — receive the same hash, because
`payload.get("sources") or []` canonicalizes both to the empty list. -/
theorem build_query_hash_sources_none_empty_collision :
    validateSearchCreateRequest querySourcesNone = some querySourcesNone
    ∧ validateSearchCreateRequest querySourcesEmpty = some querySourcesEmpty
    ∧ querySourcesNone ≠ querySourcesEmpty
    ∧ querySourcesNone.sources ≠ querySourcesEmpty.sources
    ∧ build_query_hash querySourcesNone = build_query_hash querySourcesEmpty := by
  refine ⟨?_, ?_, ?_, ?_, ?_⟩ <;> decide

/-- C3 amended: `build_query_hash` yields the same hash exactly when the
two queries agree on every field other than `sources` and their source
lists are equal as multisets after lowercasing, with an absent list
canonicalized to the empty list. In particular the hash is invariant under
source-list casing and ordering (and, beyond the original claim, under
absent-versus-empty source lists), and changes whenever any other
observable field differs; the remaining free-text fields of a validated
query are already case-canonical, so field casing never reaches the hash. -/
theorem build_query_hash_eq_iff (q1 q2 : SearchCreateRequest) :
    build_query_hash q1 = build_query_hash q2 ↔
      (q1.origin = q2.origin ∧ q1.destination = q2.destination
       ∧ q1.departure_date = q2.departure_date
       ∧ q1.return_date = q2.return_date
       ∧ q1.trip_type = q2.trip_type ∧ q1.adults = q2.adults
       ∧ q1.children = q2.children ∧ q1.infants = q2.infants
       ∧ q1.cabin = q2.cabin ∧ q1.currency = q2.currency
       ∧ q1.stop_preference = q2.stop_preference
       ∧ ((q1.sources.getD []).map pyLower).Perm
           ((q2.sources.getD []).map pyLower)) := by
  unfold build_query_hash
  rw [QueryHashPayload.mk.injEq]
  simp only [sortedStrings_eq_iff_perm]

/-! ### FX service and normalization stage
(app/services/fx.py, app/services/normalizer.py) -/

theorem toNat_ofNat_valid {n : Nat} (h : n.isValidChar) :
    (Char.ofNat n).toNat = n := by
  unfold Char.ofNat
  rw [dif_pos h]
  rfl

theorem toUpper_idem (c : Char) : c.toUpper.toUpper = c.toUpper := by
  unfold Char.toUpper
  by_cases h : c.toNat ≥ 97 ∧ c.toNat ≤ 122
  · rw [if_pos h]
    have hv : (c.toNat - 32).isValidChar := by
      left
      omega
    have ht : (Char.ofNat (c.toNat - 32)).toNat = c.toNat - 32 :=
      toNat_ofNat_valid hv
    rw [if_neg]
    rw [ht]
    omega
  · rw [if_neg h, if_neg h]

theorem pyUpper_idem (s : String) : pyUpper (pyUpper s) = pyUpper s := by
  unfold pyUpper
  simp [List.map_map, Function.comp_def, toUpper_idem]

/-- The external FX rate table behind `FxService.get_rate`'s HTTP call:
`none` models an unavailable pair (the `ValueError` / HTTP failure raise).
The TTL rate cache affects only when the collaborator is consulted, not
the returned rate, and is outside the model (wall-clock time). -/
def FxRates : Type := String → String → Option ℚ

/-- `ROUND_HALF_UP` to an integer: round to nearest, ties away from zero. -/
def roundHalfUpZ (x : ℚ) : ℤ :=
  if 0 ≤ x then ⌊x + 1 / 2⌋ else -⌊(-x) + 1 / 2⌋

/-- `Decimal.quantize(Decimal("0.01"), rounding=ROUND_HALF_UP)`. -/
def quantize2 (x : ℚ) : ℚ := (roundHalfUpZ (x * 100) : ℚ) / 100

/-- `FxService.get_rate` from app/services/fx.py: same-currency pairs have
rate 1; otherwise the external table answers, `none` propagating the
raise. -/
def fx_get_rate (rates : FxRates) (from_currency to_currency : String) :
    Option ℚ :=
  if pyUpper from_currency = pyUpper to_currency then some 1
  else rates (pyUpper from_currency) (pyUpper to_currency)

/-- `FxService.convert` from app/services/fx.py: a `None` amount passes
through; a same-currency amount is quantized to 2 decimal places half-up;
otherwise the amount is multiplied by the rate and quantized. The outer
`Option` is exception propagation (`none` = raise). -/
def fx_convert (rates : FxRates) (amount : Option ℚ)
    (from_currency to_currency : String) : Option (Option ℚ) :=
  match amount with
  | none => some none
  | some amt =>
    if pyUpper from_currency = pyUpper to_currency then
      some (some (quantize2 amt))
    else
      match fx_get_rate rates (pyUpper from_currency) (pyUpper to_currency) with
      | none => none
      | some rate => some (some (quantize2 (amt * rate)))

/-- `normalize_offer` from app/services/normalizer.py: lowercase `source`,
uppercase `origin`/`destination`; an offer already in the target currency
(up to casing) only gets its currency code canonicalized; otherwise each
of `base_price`, `taxes`, `fees`, `total_price` is converted through
`FxService.convert`. `none` models the conversion failure propagating out
of the stage. -/
def normalize_offer (offer : RawFlightOffer) (target_currency : String)
    (rates : FxRates) : Option RawFlightOffer :=
  if pyUpper offer.currency = pyUpper target_currency then
    some { offer with
            source := pyLower offer.source,
            origin := pyUpper offer.origin,
            destination := pyUpper offer.destination,
            currency := pyUpper target_currency }
  else
    match fx_convert rates offer.base_price offer.currency (pyUpper target_currency),
          fx_convert rates offer.taxes offer.currency (pyUpper target_currency),
          fx_convert rates offer.fees offer.currency (pyUpper target_currency),
          fx_convert rates (some offer.total_price) offer.currency
            (pyUpper target_currency) with
    | some base_price, some taxes, some fees, some (some total_price) =>
        some { offer with
                source := pyLower offer.source,
                origin := pyUpper offer.origin,
                destination := pyUpper offer.destination,
                base_price := base_price,
                taxes := taxes,
                fees := fees,
                total_price := total_price,
                currency := pyUpper target_currency }
    | _, _, _, _ => none

/-- `normalize_offers` from app/services/normalizer.py: normalize each
offer in order, propagating the first failure. -/
def normalize_offers (offers : List RawFlightOffer) (target_currency : String)
    (rates : FxRates) : Option (List RawFlightOffer) :=
  offers.mapM (fun offer => normalize_offer offer target_currency rates)

theorem fx_convert_some_of_rate {rates : FxRates} {from_currency to_currency : String}
    (amt : ℚ) (h : ¬ pyUpper from_currency = pyUpper to_currency)
    {rt : ℚ} (hr : rates (pyUpper from_currency) (pyUpper to_currency) = some rt) :
    fx_convert rates (some amt) from_currency to_currency
      = some (some (quantize2 (amt * rt))) := by
  unfold fx_convert fx_get_rate
  simp only [pyUpper_idem]
  rw [if_neg h, if_neg h, hr]

/-! ### Theorems: normalization stage -/

/-- C7: an offer already in the target currency (up to casing) is returned
with every monetary magnitude unchanged and only code casing normalized
(`source` lowercased, `origin`/`destination`/`currency` uppercased); on any
successful normalization, absent monetary fields remain absent; and an offer
in a different currency has every present monetary field multiplied by the
collaborator's rate and quantized to 2 decimal places with round-half-up. -/
theorem normalize_offer_currency_spec (offer : RawFlightOffer)
    (target_currency : String) (rates : FxRates) :
    (pyUpper offer.currency = pyUpper target_currency →
      normalize_offer offer target_currency rates
        = some { offer with
                  source := pyLower offer.source,
                  origin := pyUpper offer.origin,
                  destination := pyUpper offer.destination,
                  currency := pyUpper target_currency })
    ∧ (∀ result, normalize_offer offer target_currency rates = some result →
        (offer.base_price = none → result.base_price = none)
        ∧ (offer.taxes = none → result.taxes = none)
        ∧ (offer.fees = none → result.fees = none))
    ∧ (¬ pyUpper offer.currency = pyUpper target_currency →
       ∀ rt : ℚ,
        rates (pyUpper offer.currency) (pyUpper target_currency) = some rt →
        normalize_offer offer target_currency rates
          = some { offer with
                    source := pyLower offer.source,
                    origin := pyUpper offer.origin,
                    destination := pyUpper offer.destination,
                    base_price := offer.base_price.map (fun v => quantize2 (v * rt)),
                    taxes := offer.taxes.map (fun v => quantize2 (v * rt)),
                    fees := offer.fees.map (fun v => quantize2 (v * rt)),
                    total_price := quantize2 (offer.total_price * rt),
                    currency := pyUpper target_currency }) := by
  refine ⟨?_, ?_, ?_⟩
  · intro h
    unfold normalize_offer
    rw [if_pos h]
  · intro result hres
    unfold normalize_offer at hres
    by_cases h : pyUpper offer.currency = pyUpper target_currency
    · rw [if_pos h] at hres
      obtain rfl : _ = result := Option.some.inj hres
      exact ⟨fun hb => hb, fun ht => ht, fun hf => hf⟩
    · rw [if_neg h] at hres
      rcases hbp : fx_convert rates offer.base_price offer.currency
          (pyUpper target_currency) with _ | base_price <;>
        rcases htx : fx_convert rates offer.taxes offer.currency
            (pyUpper target_currency) with _ | taxes <;>
          rcases hfe : fx_convert rates offer.fees offer.currency
              (pyUpper target_currency) with _ | fees <;>
            rcases hto : fx_convert rates (some offer.total_price) offer.currency
                (pyUpper target_currency) with _ | total <;>
              rw [hbp, htx, hfe, hto] at hres <;>
                first
                  | exact absurd hres (by simp)
                  | skip
      rcases total with _ | total_price
      · exact absurd hres (by simp)
      · obtain rfl : _ = result := Option.some.inj hres
        refine ⟨?_, ?_, ?_⟩
        · intro hb
          rw [hb] at hbp
          have : base_price = none := by
            have := hbp
            unfold fx_convert at this
            exact (Option.some.inj this).symm
          simpa using this
        · intro ht
          rw [ht] at htx
          have : taxes = none := by
            have := htx
            unfold fx_convert at this
            exact (Option.some.inj this).symm
          simpa using this
        · intro hf
          rw [hf] at hfe
          have : fees = none := by
            have := hfe
            unfold fx_convert at this
            exact (Option.some.inj this).symm
          simpa using this
  · intro h rt hr
    unfold normalize_offer
    rw [if_neg h]
    have hconv : ∀ a : Option ℚ,
        fx_convert rates a offer.currency (pyUpper target_currency)
          = some (a.map (fun v => quantize2 (v * rt))) := by
      intro a
      cases a with
      | none => rfl
      | some amt =>
        have h' : ¬ pyUpper offer.currency = pyUpper (pyUpper target_currency) := by
          rw [pyUpper_idem]
          exact h
        have hr' : rates (pyUpper offer.currency) (pyUpper (pyUpper target_currency))
            = some rt := by
          rw [pyUpper_idem]
          exact hr
        rw [fx_convert_some_of_rate amt h' hr']
        rfl
    rw [hconv offer.base_price, hconv offer.taxes, hconv offer.fees,
      hconv (some offer.total_price)]
    rfl

/-- Witness fixture: an offer whose currency already matches the target up
to casing. -/
def wOfferSame : RawFlightOffer :=
  { source := "Trip_Com", airline := "AirAsia", flight_numbers := ["AK611"],
    origin := "kul", destination := "bkk",
    departure_at := "2026-03-20T09:00+00:00",
    arrival_at := "2026-03-20T11:30+00:00",
    stops := 0, duration_minutes := 150, cabin := some "economy",
    fare_brand := none, baggage := none, fare_rules := none,
    base_price := some (2895/10), taxes := none, fees := none,
    total_price := 2895/10, currency := "myr",
    booking_url := "https://b.example", raw_payload := "" }

/-- Witness fixture: the same offer quoted in USD with an absent
`base_price`. -/
def wOfferFx : RawFlightOffer :=
  { wOfferSame with currency := "USD", base_price := none }

/-- Witness fixture: an FX table quoting only USD to MYR. -/
def wRates : FxRates :=
  fun a b => if a = "USD" ∧ b = "MYR" then some (47/10) else none

/-- Witness fixture: the expected normalization of `wOfferFx` to MYR. -/
def wNormFx : RawFlightOffer :=
  { wOfferFx with
     source := pyLower wOfferFx.source,
     origin := pyUpper wOfferFx.origin,
     destination := pyUpper wOfferFx.destination,
     base_price := none, taxes := none, fees := none,
     total_price := quantize2 (wOfferFx.total_price * (47/10)),
     currency := "MYR" }

/-- Witness for C7 at concrete inputs: the same-currency branch, the
absent-fields clause, and the conversion branch of
`normalize_offer_currency_spec`, each with its hypotheses discharged. -/
theorem normalize_offer_currency_spec_witness :
    (normalize_offer wOfferSame "MYR" wRates
      = some { wOfferSame with
                source := pyLower wOfferSame.source,
                origin := pyUpper wOfferSame.origin,
                destination := pyUpper wOfferSame.destination,
                currency := pyUpper "MYR" })
    ∧ ((wOfferFx.base_price = none → wNormFx.base_price = none)
       ∧ (wOfferFx.taxes = none → wNormFx.taxes = none)
       ∧ (wOfferFx.fees = none → wNormFx.fees = none))
    ∧ (normalize_offer wOfferFx "myr" wRates
      = some { wOfferFx with
                source := pyLower wOfferFx.source,
                origin := pyUpper wOfferFx.origin,
                destination := pyUpper wOfferFx.destination,
                base_price := wOfferFx.base_price.map
                  (fun v => quantize2 (v * (47/10))),
                taxes := wOfferFx.taxes.map (fun v => quantize2 (v * (47/10))),
                fees := wOfferFx.fees.map (fun v => quantize2 (v * (47/10))),
                total_price := quantize2 (wOfferFx.total_price * (47/10)),
                currency := pyUpper "myr" }) :=
  ⟨(normalize_offer_currency_spec wOfferSame "MYR" wRates).1 (by decide),
   (normalize_offer_currency_spec wOfferFx "myr" wRates).2.1 wNormFx rfl,
   (normalize_offer_currency_spec wOfferFx "myr" wRates).2.2 (by decide)
     (47/10) rfl⟩

/-! ### Theorems: normalization frame -/

/-- C10: `normalize_offer` can change only `source`, `origin`,
`destination`, `currency` and the monetary fields; every other field of a
successfully normalized offer is returned unchanged. -/
theorem normalize_offer_frame (offer : RawFlightOffer)
    (target_currency : String) (rates : FxRates) (result : RawFlightOffer)
    (hres : normalize_offer offer target_currency rates = some result) :
    result.airline = offer.airline
    ∧ result.flight_numbers = offer.flight_numbers
    ∧ result.departure_at = offer.departure_at
    ∧ result.arrival_at = offer.arrival_at
    ∧ result.stops = offer.stops
    ∧ result.duration_minutes = offer.duration_minutes
    ∧ result.cabin = offer.cabin
    ∧ result.fare_brand = offer.fare_brand
    ∧ result.baggage = offer.baggage
    ∧ result.fare_rules = offer.fare_rules
    ∧ result.booking_url = offer.booking_url
    ∧ result.raw_payload = offer.raw_payload
    ∧ result.deep_link_valid = offer.deep_link_valid := by
  unfold normalize_offer at hres
  by_cases h : pyUpper offer.currency = pyUpper target_currency
  · rw [if_pos h] at hres
    obtain rfl : _ = result := Option.some.inj hres
    exact ⟨rfl, rfl, rfl, rfl, rfl, rfl, rfl, rfl, rfl, rfl, rfl, rfl, rfl⟩
  · rw [if_neg h] at hres
    rcases hbp : fx_convert rates offer.base_price offer.currency
        (pyUpper target_currency) with _ | base_price <;>
      rcases htx : fx_convert rates offer.taxes offer.currency
          (pyUpper target_currency) with _ | taxes <;>
        rcases hfe : fx_convert rates offer.fees offer.currency
            (pyUpper target_currency) with _ | fees <;>
          rcases hto : fx_convert rates (some offer.total_price) offer.currency
              (pyUpper target_currency) with _ | total <;>
            rw [hbp, htx, hfe, hto] at hres <;>
              first
                | exact absurd hres (by simp)
                | skip
    rcases total with _ | total_price
    · exact absurd hres (by simp)
    · obtain rfl : _ = result := Option.some.inj hres
      exact ⟨rfl, rfl, rfl, rfl, rfl, rfl, rfl, rfl, rfl, rfl, rfl, rfl, rfl⟩

/-- Witness for C10 at a concrete input: the frame property of
`normalize_offer_frame` instantiated on the USD offer and its
normalization, with the success hypothesis discharged by computation. -/
theorem normalize_offer_frame_witness :
    wNormFx.airline = wOfferFx.airline
    ∧ wNormFx.flight_numbers = wOfferFx.flight_numbers
    ∧ wNormFx.departure_at = wOfferFx.departure_at
    ∧ wNormFx.arrival_at = wOfferFx.arrival_at
    ∧ wNormFx.stops = wOfferFx.stops
    ∧ wNormFx.duration_minutes = wOfferFx.duration_minutes
    ∧ wNormFx.cabin = wOfferFx.cabin
    ∧ wNormFx.fare_brand = wOfferFx.fare_brand
    ∧ wNormFx.baggage = wOfferFx.baggage
    ∧ wNormFx.fare_rules = wOfferFx.fare_rules
    ∧ wNormFx.booking_url = wOfferFx.booking_url
    ∧ wNormFx.raw_payload = wOfferFx.raw_payload
    ∧ wNormFx.deep_link_valid = wOfferFx.deep_link_valid :=
  normalize_offer_frame wOfferFx "myr" wRates wNormFx rfl

/-! ### Connector orchestrator (app/services/orchestrator.py) -/

/-- The observable outcome of one attempt of `connector.search(query)`
under `asyncio.wait_for`: a successful offer list, a `TimeoutError`, or any
other raised exception carrying its type name and message text. -/
inductive AttemptOutcome
  | success (offers : List RawFlightOffer)
  | timeout
  | failure (kind message : String)
deriving DecidableEq, Repr

/-- Whether an attempt returned instead of raising. -/
def AttemptOutcome.isSuccess : AttemptOutcome → Bool
  | .success _ => true
  | _ => false

/-- `ConnectorRunResult` dataclass from app/services/orchestrator.py.
`latency_ms` is wall-clock time and carries no verified content; it is
omitted from the embedding. -/
structure ConnectorRunResult where
  source : String
  status : String
  offers : List RawFlightOffer
  error_message : Option String
deriving DecidableEq, Repr

/-- `_format_exception_message` from app/services/orchestrator.py. -/
def format_exception_message (kind message : String) : String :=
  if ¬ pyStrip message = "" then kind ++ ": " ++ pyStrip message
  else kind ++ ": no details provided"

/-- The status recorded for an attempt outcome. -/
def attemptStatus : AttemptOutcome → String
  | .success _ => "success"
  | .timeout => "timeout"
  | .failure _ _ => "error"

/-- The error description recorded for an attempt outcome. -/
def attemptError (timeout_seconds : ℕ) : AttemptOutcome → Option String
  | .success _ => none
  | .timeout => some ("Timed out after " ++ toString timeout_seconds ++ "s")
  | .failure kind message => some (format_exception_message kind message)

/-- The retry loop of `_run_single`: walk the attempts in order carrying
the running `status` / `last_error` state; the first success returns
immediately with its offers, and exhausting the attempts returns the
accumulated state with an empty offer list. -/
def runAttempts (name : String) (timeout_seconds : ℕ) (status : String)
    (last_error : Option String) :
    List AttemptOutcome → ConnectorRunResult
  | [] => ⟨name, status, [], last_error⟩
  | attempt :: rest =>
    match attempt with
    | .success offers => ⟨name, "success", offers, none⟩
    | .timeout =>
        runAttempts name timeout_seconds "timeout"
          (attemptError timeout_seconds .timeout) rest
    | .failure kind message =>
        runAttempts name timeout_seconds "error"
          (attemptError timeout_seconds (.failure kind message)) rest

/-- `_run_single` from app/services/orchestrator.py: up to `retries + 1`
sequential attempts, initial state `status = "error"`, `last_error = None`.
The connector's behaviour is the attempt-indexed outcome function. -/
def run_single (name : String) (timeout_seconds retries : ℕ)
    (attempt : ℕ → AttemptOutcome) : ConnectorRunResult :=
  runAttempts name timeout_seconds "error" none
    ((List.range (retries + 1)).map attempt)

/-- `execute_connectors` from app/services/orchestrator.py: one
`_run_single` result per connector. The semaphore gating only schedules the
calls (modelled by `OrchStep` below); each connector's result is that of
its own `_run_single`. -/
def execute_connectors (connectors : List (String × (ℕ → AttemptOutcome)))
    (timeout_seconds retries : ℕ) : List ConnectorRunResult :=
  connectors.map (fun c => run_single c.1 timeout_seconds retries c.2)

theorem runAttempts_all_fail (name : String) (timeout_seconds : ℕ) :
    ∀ (attempts : List AttemptOutcome) (status : String)
      (last_error : Option String),
    (∀ a ∈ attempts, a.isSuccess = false) →
    runAttempts name timeout_seconds status last_error attempts
      = ⟨name, (attempts.getLast?.map attemptStatus).getD status, [],
          (attempts.getLast?.map (attemptError timeout_seconds)).getD last_error⟩ := by
  intro attempts
  induction attempts with
  | nil =>
    intro status last_error _
    rfl
  | cons a rest ih =>
    intro status last_error hfail
    have ha : a.isSuccess = false := hfail a (List.mem_cons_self a rest)
    have hrest : ∀ x ∈ rest, x.isSuccess = false :=
      fun x hx => hfail x (List.mem_cons_of_mem a hx)
    cases a with
    | success offers => simp [AttemptOutcome.isSuccess] at ha
    | timeout =>
      rw [runAttempts, ih _ _ hrest]
      cases rest with
      | nil => rfl
      | cons b rest2 =>
        obtain ⟨x, hx⟩ : ∃ x, (b :: rest2).getLast? = some x :=
          ⟨(b :: rest2).getLast (by simp), List.getLast?_eq_getLast _ (by simp)⟩
        simp [List.getLast?_cons_cons, hx]
    | failure kind message =>
      rw [runAttempts, ih _ _ hrest]
      cases rest with
      | nil => rfl
      | cons b rest2 =>
        obtain ⟨x, hx⟩ : ∃ x, (b :: rest2).getLast? = some x :=
          ⟨(b :: rest2).getLast (by simp), List.getLast?_eq_getLast _ (by simp)⟩
        simp [List.getLast?_cons_cons, hx]

/-! ### Theorems: orchestrator error reporting -/

/-- C4: in `execute_connectors`, a connector all of whose attempts fail
gets the run result of its last attempt — that attempt's status and error
description, with an empty offer list; in particular an always-raising
connector with `retries = 0` yields status `"error"`, and when the raised
exception carries no message text the description is exactly
`"<ExceptionKind>: no details provided"`. -/
theorem execute_connectors_last_attempt_spec
    (connectors : List (String × (ℕ → AttemptOutcome)))
    (timeout_seconds retries : ℕ) :
    (∀ i : ℕ, ∀ hi : i < connectors.length,
      (∀ a ∈ (List.range (retries + 1)).map (connectors.get ⟨i, hi⟩).2,
          a.isSuccess = false) →
      ∀ last : AttemptOutcome,
        ((List.range (retries + 1)).map (connectors.get ⟨i, hi⟩).2).getLast?
          = some last →
        (execute_connectors connectors timeout_seconds retries).get
            ⟨i, by simpa [execute_connectors] using hi⟩
          = ⟨(connectors.get ⟨i, hi⟩).1, attemptStatus last, [],
              attemptError timeout_seconds last⟩)
    ∧ (∀ (name : String) (attempt : ℕ → AttemptOutcome) (kind message : String),
        attempt 0 = .failure kind message →
        pyStrip message = "" →
        run_single name timeout_seconds 0 attempt
          = ⟨name, "error", [], some (kind ++ ": no details provided")⟩) := by
  constructor
  · intro i hi hfail last hlast
    have hget : (execute_connectors connectors timeout_seconds retries).get
        ⟨i, by simpa [execute_connectors] using hi⟩
        = run_single (connectors.get ⟨i, hi⟩).1 timeout_seconds retries
            (connectors.get ⟨i, hi⟩).2 := by
      simp [execute_connectors]
    rw [hget]
    unfold run_single
    rw [runAttempts_all_fail _ _ _ _ _ hfail, hlast]
    rfl
  · intro name attempt kind message hat hmsg
    unfold run_single
    have hrange : (List.range (0 + 1)).map attempt = [.failure kind message] := by
      simp [List.range_succ, hat]
    rw [hrange]
    simp [runAttempts, attemptError, format_exception_message, hmsg]

/-- Witness for C4 at a concrete input: one connector whose single attempt
raises a message-less `AssertionError` with `retries = 0`, run through both
clauses of `execute_connectors_last_attempt_spec`. -/
theorem execute_connectors_last_attempt_spec_witness :
    (execute_connectors [("failing", fun _ => .failure "AssertionError" "")] 5 0).get
        ⟨0, by simp [execute_connectors]⟩
      = ⟨"failing", "error", [],
          some (format_exception_message "AssertionError" "")⟩
    ∧ run_single "failing" 5 0 (fun _ => .failure "AssertionError" "")
      = ⟨"failing", "error", [], some ("AssertionError" ++ ": no details provided")⟩ :=
  ⟨(execute_connectors_last_attempt_spec
      [("failing", fun _ => .failure "AssertionError" "")] 5 0).1 0
      (by decide) (by decide) (.failure "AssertionError" "") (by decide),
   (execute_connectors_last_attempt_spec
      [("failing", fun _ => .failure "AssertionError" "")] 5 0).2
      "failing" (fun _ => .failure "AssertionError" "")
      "AssertionError" "" rfl (by decide)⟩

/-! ### Orchestrator scheduling
(`asyncio.Semaphore(max_parallel)` in app/services/orchestrator.py) -/

/-- Scheduling state of one `execute_connectors` run: how many `_guarded`
connector tasks are waiting to acquire the semaphore, how many are inside
`async with semaphore` (their connector `search` call active), how many
have finished, and how many semaphore permits remain free. -/
structure OrchSchedState where
  waiting : ℕ
  active : ℕ
  finished : ℕ
  permits : ℕ
deriving DecidableEq, Repr

/-- The scheduling events of the guarded tasks: entering
`async with semaphore` consumes a free permit and starts the connector
call; leaving it finishes the call and returns the permit. (The event-loop
interleaving between tasks is otherwise unconstrained.) -/
inductive OrchStep : OrchSchedState → OrchSchedState → Prop
  | acquire (w a d p : ℕ) : OrchStep ⟨w + 1, a, d, p + 1⟩ ⟨w, a + 1, d, p⟩
  | release (w a d p : ℕ) : OrchStep ⟨w, a + 1, d, p⟩ ⟨w, a, d + 1, p + 1⟩

/-- Initial scheduling state of `execute_connectors`: all `n` guarded
connector tasks waiting on a fresh `asyncio.Semaphore(max_parallel)`. -/
def orchInit (n max_parallel : ℕ) : OrchSchedState :=
  ⟨n, 0, 0, max_parallel⟩

/-- The states reachable during one run of `execute_connectors` over `n`
connectors with `max_parallel` permits. -/
def OrchReachable (n max_parallel : ℕ) (s : OrchSchedState) : Prop :=
  Relation.ReflTransGen OrchStep (orchInit n max_parallel) s

theorem orchStep_active_permits {mp : ℕ} {s t : OrchSchedState}
    (h : OrchStep s t) (hs : s.active + s.permits = mp) :
    t.active + t.permits = mp := by
  cases h with
  | acquire w a d p =>
    simp only at hs ⊢
    omega
  | release w a d p =>
    simp only at hs ⊢
    omega

/-! ### Theorems: bounded parallelism -/

/-- C9: in every state reachable during a run of `execute_connectors`, at
most `max_parallel` connector search calls are active simultaneously,
regardless of the number `n` of connectors: active calls and free permits
always sum to `max_parallel`. -/
theorem orchestrator_bounded_parallelism (n max_parallel : ℕ)
    (s : OrchSchedState) (hs : OrchReachable n max_parallel s) :
    s.active ≤ max_parallel := by
  have key : s.active + s.permits = max_parallel := by
    induction hs with
    | refl => simp [orchInit]
    | tail _ hstep ih => exact orchStep_active_permits hstep ih
  omega

/-- Witness for C9 at a concrete input: with 3 connectors and 2 permits,
the state after two acquisitions is reachable and its 2 active calls
respect the bound given by `orchestrator_bounded_parallelism`. -/
theorem orchestrator_bounded_parallelism_witness :
    OrchReachable 3 2 ⟨1, 2, 0, 0⟩
    ∧ (⟨1, 2, 0, 0⟩ : OrchSchedState).active ≤ 2 := by
  have h1 : OrchStep (orchInit 3 2) ⟨2, 1, 0, 1⟩ := OrchStep.acquire 2 0 0 1
  have h2 : OrchStep ⟨2, 1, 0, 1⟩ ⟨1, 2, 0, 0⟩ := OrchStep.acquire 1 1 0 0
  have hr : OrchReachable 3 2 ⟨1, 2, 0, 0⟩ :=
    Relation.ReflTransGen.tail (Relation.ReflTransGen.tail
      Relation.ReflTransGen.refl h1) h2
  exact ⟨hr, orchestrator_bounded_parallelism 3 2 _ hr⟩

/-! ### Cache client (app/services/cache.py) -/

/-- The slimmed connector-run view stored in the cache payload by
`SearchWorker._run` (source, status, error; latency is wall-clock and
omitted as in `ConnectorRunResult`). -/
structure SlimConnectorRun where
  source : String
  status : String
  error_message : Option String
deriving DecidableEq, Repr

/-- The JSON payload cached per query key: the ranked offers and the
slimmed run results (typed; JSON encoding/decoding is modelled as the
identity, so the decode-error guard of `get_json` has no analogue). -/
structure CachedSearchPayload where
  offers : List RawFlightOffer
  connector_runs : List SlimConnectorRun
deriving DecidableEq, Repr

/-- A Redis connection obtained by a successful connect-time ping: its
key-value store, and whether the transport is currently reachable
(operations on an unreachable connection raise). TTL expiry is time-based
and outside the model. -/
structure RedisConn where
  store : List (String × CachedSearchPayload)
  reachable : Bool
deriving DecidableEq, Repr

/-- `redis.get` as used by `get_json`: raises when the transport is down. -/
def redis_get (conn : RedisConn) (key : String) :
    Except String (Option CachedSearchPayload) :=
  if conn.reachable then Except.ok (lookupAssoc conn.store key)
  else Except.error "Redis connection error"

/-- `redis.set` as used by `set_json`: overwrite-or-insert, raising when
the transport is down. -/
def redis_set (conn : RedisConn) (key : String)
    (payload : CachedSearchPayload) : Except String RedisConn :=
  if conn.reachable then
    Except.ok { conn with
                 store :=
                   match lookupAssoc conn.store key with
                   | some _ => updateAssoc conn.store key payload
                   | none => conn.store ++ [(key, payload)] }
  else Except.error "Redis connection error"

/-- `CacheClient` from app/services/cache.py: `_redis` is `None` until
`connect()` succeeds. -/
structure CacheClient where
  redis : Option RedisConn
deriving DecidableEq, Repr

/-- `CacheClient.connect`: no URL configured leaves the client
unconnected; a failing ping is swallowed with a warning and leaves the
client unconnected; a successful ping installs the connection. -/
def cache_connect (redis_url : Option String) (ping_ok : Bool)
    (conn : RedisConn) : CacheClient :=
  match redis_url with
  | none => ⟨none⟩
  | some _ => if ping_ok then ⟨some conn⟩ else ⟨none⟩

/-- `CacheClient.get_json`: a miss when not connected; otherwise the redis
GET, whose transport errors propagate (the method guards only JSON decode
errors, not transport errors). -/
def cache_get_json (client : CacheClient) (key : String) :
    Except String (Option CachedSearchPayload) :=
  match client.redis with
  | none => Except.ok none
  | some conn => redis_get conn key

/-- `CacheClient.set_json`: a no-op when not connected; otherwise the redis
SET with TTL, whose transport errors propagate. -/
def cache_set_json (client : CacheClient) (key : String)
    (payload : CachedSearchPayload) (ttl_seconds : ℕ) :
    Except String CacheClient :=
  match client.redis with
  | none => Except.ok client
  | some conn => (redis_set conn key payload).map (fun c => ⟨some c⟩)

/-! ### Search worker (app/workers/search_worker.py) -/

/-- The pipeline section of `SearchWorker._run` after the connector fan-out:
collect raw offers from the runs, normalize to the query currency, filter
by stop preference, dedup, rank, cap at `max_offers_per_search`. `none` is
a stage failure (exception). -/
def pipeline_ranked (query : SearchCreateRequest)
    (runs : List ConnectorRunResult) (rates : FxRates) (max_offers : ℕ) :
    Option (List RawFlightOffer) :=
  match normalize_offers ((runs.map (fun run => run.offers)).flatten)
      query.currency rates with
  | none => none
  | some normalized =>
      some ((rank_offers (deduplicate_offers
        (filter_offers_by_stops normalized query.stop_preference))).take
          max_offers)

/-- The observable outcome of one `SearchWorker._run` for an existing
request row: the terminal request status and error message, the cache
client state after the run, whether the connector fan-out ran, and the
persisted offers. -/
structure WorkerRunOutcome where
  status : SearchStatus
  error_message : Option String
  cache : CacheClient
  ranConnectors : Bool
  offers : List RawFlightOffer
deriving DecidableEq, Repr

/-- `SearchWorker._run` from app/workers/search_worker.py (request row
present), parameterized by its collaborators: the cache client state, the
connectors resolved by the registry for the requested sources, the FX
table, the link prober, and the settings values. A cached payload is
replayed through persistence untouched; on a miss the fixed pipeline runs,
the result is persisted, and the cache is populated only for a non-empty
ranked list; any exception is caught by the outer handler and recorded by
`_mark_failed` (setting `failed` even when it was raised after
persistence, as a `set_json` transport error is). -/
def search_worker_run (cache : CacheClient) (query_hash : String)
    (query : SearchCreateRequest)
    (connectors : List (String × (ℕ → AttemptOutcome)))
    (rates : FxRates) (link_ok : String → Bool)
    (timeout_seconds retries max_offers ttl_seconds : ℕ) : WorkerRunOutcome :=
  match cache_get_json cache (cache_key_for_query_hash query_hash) with
  | Except.error e => ⟨SearchStatus.failed, some e, cache, false, []⟩
  | Except.ok (some payload) =>
      ⟨SearchStatus.completed, none, cache, false, payload.offers⟩
  | Except.ok none =>
    if connectors.isEmpty then
      ⟨SearchStatus.failed, some "No valid connectors requested", cache,
        false, []⟩
    else
      let runs := execute_connectors connectors timeout_seconds retries
      match pipeline_ranked query runs rates max_offers with
      | none => ⟨SearchStatus.failed, some "FX rate unavailable", cache,
          true, []⟩
      | some ranked0 =>
        let ranked := ranked0.map (fun offer =>
          { offer with deep_link_valid := link_ok offer.booking_url })
        if ranked = [] then
          ⟨SearchStatus.completed, none, cache, true, ranked⟩
        else
          match cache_set_json cache (cache_key_for_query_hash query_hash)
              ⟨ranked, runs.map (fun run =>
                ⟨run.source, run.status, run.error_message⟩)⟩
              ttl_seconds with
          | Except.error e => ⟨SearchStatus.failed, some e, cache, true, ranked⟩
          | Except.ok cache2 =>
              ⟨SearchStatus.completed, none, cache2, true, ranked⟩

theorem lookupAssoc_append_self {α : Type} (m : List (String × α))
    (key : String) (v : α) (h : lookupAssoc m key = none) :
    lookupAssoc (m ++ [(key, v)]) key = some v := by
  induction m with
  | nil => simp [lookupAssoc]
  | cons p rest ih =>
    obtain ⟨k1, v1⟩ := p
    by_cases hk : k1 = key
    · rw [lookupAssoc, if_pos hk] at h
      cases h
    · rw [lookupAssoc, if_neg hk] at h
      rw [List.cons_append, lookupAssoc, if_neg hk]
      exact ih h

/-! ### Theorems: worker cache population -/

/-- C5: on a cache miss with a healthy, reachable store, the worker runs
the connectors, and populates the cache at the query's key iff the ranked
pipeline result is non-empty; when the pipeline yields zero ranked offers
the cache is left untouched, so a second run of the identical query (same
hash, same cache) runs the connectors again instead of reading a cached
empty result. -/
theorem search_worker_cache_iff_nonempty
    (conn : RedisConn) (query_hash : String) (query : SearchCreateRequest)
    (connectors : List (String × (ℕ → AttemptOutcome)))
    (rates : FxRates) (link_ok : String → Bool)
    (timeout_seconds retries max_offers ttl_seconds : ℕ)
    (hreach : conn.reachable = true)
    (hmiss : lookupAssoc conn.store (cache_key_for_query_hash query_hash) = none)
    (hconn : connectors.isEmpty = false)
    (ranked0 : List RawFlightOffer)
    (hpipe : pipeline_ranked query
        (execute_connectors connectors timeout_seconds retries) rates
        max_offers = some ranked0)
    (out : WorkerRunOutcome)
    (hout : out = search_worker_run ⟨some conn⟩ query_hash query connectors
        rates link_ok timeout_seconds retries max_offers ttl_seconds) :
    out.ranConnectors = true
    ∧ ((∃ conn2, out.cache.redis = some conn2
          ∧ (lookupAssoc conn2.store
              (cache_key_for_query_hash query_hash)).isSome = true)
        ↔ ¬ ranked0 = [])
    ∧ (ranked0 = [] →
        out.cache = ⟨some conn⟩
        ∧ (search_worker_run out.cache query_hash query connectors rates
            link_ok timeout_seconds retries max_offers
            ttl_seconds).ranConnectors = true) := by
  have hget : cache_get_json ⟨some conn⟩ (cache_key_for_query_hash query_hash)
      = Except.ok none := by
    simp [cache_get_json, redis_get, hreach, hmiss]
  by_cases hr : ranked0 = []
  · subst hr
    have hrun : search_worker_run ⟨some conn⟩ query_hash query connectors
        rates link_ok timeout_seconds retries max_offers ttl_seconds
        = ⟨SearchStatus.completed, none, ⟨some conn⟩, true, []⟩ := by
      unfold search_worker_run
      rw [hget]
      simp [hconn, hpipe]
    subst hout
    rw [hrun]
    refine ⟨rfl, ?_, ?_⟩
    · constructor
      · rintro ⟨conn2, hc2, hsome⟩
        obtain rfl : conn = conn2 := Option.some.inj hc2
        rw [hmiss] at hsome
        cases hsome
      · intro hcontra
        exact absurd rfl hcontra
    · intro _
      exact ⟨rfl, by rw [hrun]⟩
  · have hmap : ¬ ranked0.map (fun offer =>
        { offer with deep_link_valid := link_ok offer.booking_url }) = [] := by
      simpa using hr
    have hrun : search_worker_run ⟨some conn⟩ query_hash query connectors
        rates link_ok timeout_seconds retries max_offers ttl_seconds
        = ⟨SearchStatus.completed, none,
            ⟨some ⟨conn.store ++ [(cache_key_for_query_hash query_hash,
              ⟨ranked0.map (fun offer =>
                { offer with deep_link_valid := link_ok offer.booking_url }),
               (execute_connectors connectors timeout_seconds retries).map
                 (fun run => ⟨run.source, run.status, run.error_message⟩)⟩)],
              true⟩⟩, true,
            ranked0.map (fun offer =>
              { offer with deep_link_valid := link_ok offer.booking_url })⟩ := by
      unfold search_worker_run
      rw [hget]
      simp [hconn, hpipe, hmap, cache_set_json, redis_set, hreach, hmiss,
        Except.map]
    subst hout
    rw [hrun]
    refine ⟨rfl, ?_, fun hcontra => absurd hcontra hr⟩
    constructor
    · intro _
      exact hr
    · intro _
      refine ⟨_, rfl, ?_⟩
      rw [lookupAssoc_append_self _ _ _ hmiss]
      rfl

/-- Witness fixture: a canonical valid query in MYR with default
preferences. -/
def wQuery : SearchCreateRequest :=
  { origin := "KUL", destination := "BKK", departure_date := 20260320,
    return_date := some 20260325, trip_type := TripType.round_trip,
    adults := 1, children := 0, infants := 0, cabin := CabinClass.economy,
    currency := "MYR", stop_preference := StopPreference.any,
    sources := some ["trip_com", "airasia"] }

/-- Witness for C5 at concrete inputs: an empty reachable cache, one
always-failing connector (pipeline yields zero ranked offers), all
hypotheses of `search_worker_cache_iff_nonempty` discharged by
computation. -/
theorem search_worker_cache_iff_nonempty_witness :
    (search_worker_run ⟨some ⟨[], true⟩⟩ "h" wQuery
        [("failing", fun _ => AttemptOutcome.failure "AssertionError" "")]
        wRates (fun _ => true) 5 0 50 180).ranConnectors = true
    ∧ ((∃ conn2, (search_worker_run ⟨some ⟨[], true⟩⟩ "h" wQuery
          [("failing", fun _ => AttemptOutcome.failure "AssertionError" "")]
          wRates (fun _ => true) 5 0 50 180).cache.redis = some conn2
          ∧ (lookupAssoc conn2.store
              (cache_key_for_query_hash "h")).isSome = true)
        ↔ ¬ ([] : List RawFlightOffer) = [])
    ∧ (([] : List RawFlightOffer) = [] →
        (search_worker_run ⟨some ⟨[], true⟩⟩ "h" wQuery
          [("failing", fun _ => AttemptOutcome.failure "AssertionError" "")]
          wRates (fun _ => true) 5 0 50 180).cache = ⟨some ⟨[], true⟩⟩
        ∧ (search_worker_run (search_worker_run ⟨some ⟨[], true⟩⟩ "h" wQuery
            [("failing", fun _ => AttemptOutcome.failure "AssertionError" "")]
            wRates (fun _ => true) 5 0 50 180).cache "h" wQuery
            [("failing", fun _ => AttemptOutcome.failure "AssertionError" "")]
            wRates (fun _ => true) 5 0 50 180).ranConnectors = true) :=
  search_worker_cache_iff_nonempty ⟨[], true⟩ "h" wQuery
    [("failing", fun _ => AttemptOutcome.failure "AssertionError" "")]
    wRates (fun _ => true) 5 0 50 180 rfl rfl rfl [] rfl _ rfl

/-- C6: `filter_offers_by_stops` with `non_stop` returns exactly the offers
with `stops = 0`; with the `with_stops`-equivalent preference
(`multiple_stops`) exactly the offers with `stops ≥ 1`; with the default
preference (`any`) the input unchanged; and for every preference the result
is a sublist of the input (order-preserving; the function is a pure total
function by construction). -/
theorem filter_offers_by_stops_spec (offers : List RawFlightOffer) :
    filter_offers_by_stops offers StopPreference.non_stop
        = offers.filter (fun offer => offer.stops = 0)
    ∧ filter_offers_by_stops offers StopPreference.multiple_stops
        = offers.filter (fun offer => offer.stops ≥ 1)
    ∧ filter_offers_by_stops offers StopPreference.any = offers
    ∧ ∀ stop_preference,
        (filter_offers_by_stops offers stop_preference).Sublist offers := by
  refine ⟨rfl, rfl, rfl, ?_⟩
  intro stop_preference
  cases stop_preference <;>
    simp [filter_offers_by_stops, List.filter_sublist, List.Sublist.refl]

/-! ### Theorems: cache soft-fail -/

/-- C8 is false as stated: on a client whose store was reachable at
connect time but is unreachable now, `get_json` surfaces the transport
error instead of returning a miss (there is no guard around the redis GET),
and the worker's outer exception handler therefore marks the search
`failed` because of a cache transport error. -/
theorem cache_soft_fail_counterexample :
    cache_get_json ⟨some ⟨[], false⟩⟩ "search-result:v3:h"
      = Except.error "Redis connection error"
    ∧ (search_worker_run ⟨some ⟨[], false⟩⟩ "h" wQuery
        [("failing", fun _ => AttemptOutcome.failure "AssertionError" "")]
        wRates (fun _ => true) 5 0 50 180).status = SearchStatus.failed
    ∧ (search_worker_run ⟨some ⟨[], false⟩⟩ "h" wQuery
        [("failing", fun _ => AttemptOutcome.failure "AssertionError" "")]
        wRates (fun _ => true) 5 0 50 180).error_message
      = some "Redis connection error" :=
  ⟨rfl, rfl, rfl⟩

/-- C8 amended: the soft-fail contract holds for a client that is not
connected — which is exactly what an unreachable backing store at connect
time produces: no configured URL, or a failed ping, leaves `_redis` unset.
Then `get_json` always returns a miss, `set_json` is a no-op, and a search
can fail only for non-cache reasons (no resolvable connectors, or an FX
failure), so the pipeline degrades to recomputing. A transport error on a
store that became unreachable after a successful connect, by contrast,
propagates and fails the search (see the counterexample). -/
theorem cache_soft_fail_unconnected (client : CacheClient)
    (hnone : client.redis = none) :
    (∀ key, cache_get_json client key = Except.ok none)
    ∧ (∀ key payload ttl_seconds,
        cache_set_json client key payload ttl_seconds = Except.ok client)
    ∧ (∀ query_hash query connectors rates link_ok timeout_seconds retries
          max_offers ttl_seconds,
        (search_worker_run client query_hash query connectors rates link_ok
            timeout_seconds retries max_offers ttl_seconds).status
          = SearchStatus.failed →
        (search_worker_run client query_hash query connectors rates link_ok
            timeout_seconds retries max_offers ttl_seconds).error_message
          = some "No valid connectors requested"
        ∨ (search_worker_run client query_hash query connectors rates link_ok
            timeout_seconds retries max_offers ttl_seconds).error_message
          = some "FX rate unavailable")
    ∧ (∀ ping_ok conn, cache_connect none ping_ok conn = ⟨none⟩)
    ∧ (∀ url conn, cache_connect (some url) false conn = ⟨none⟩) := by
  obtain ⟨r⟩ := client
  cases hnone
  refine ⟨fun key => rfl, fun key payload ttl_seconds => rfl, ?_, fun _ _ => rfl,
    fun _ _ => rfl⟩
  intro query_hash query connectors rates link_ok timeout_seconds retries
    max_offers ttl_seconds hfail
  by_cases hconn : connectors.isEmpty
  · left
    unfold search_worker_run
    simp [cache_get_json, hconn]
  · rcases hpipe : pipeline_ranked query
        (execute_connectors connectors timeout_seconds retries) rates
        max_offers with _ | ranked0
    · right
      unfold search_worker_run
      simp [cache_get_json, hconn, hpipe]
    · exfalso
      by_cases hranked : ranked0.map (fun offer =>
          { offer with deep_link_valid := link_ok offer.booking_url }) = []
      · unfold search_worker_run at hfail
        simp [cache_get_json, hconn, hpipe, hranked] at hfail
      · unfold search_worker_run at hfail
        simp [cache_get_json, hconn, hpipe, hranked, cache_set_json] at hfail

/-- Witness for C8 (amended) at concrete inputs: an unconnected client
behaves as a miss and a no-op, a failed ping leaves the client
unconnected, and the only failure of a concrete worker run over it is the
no-connectors one, via `cache_soft_fail_unconnected`. -/
theorem cache_soft_fail_unconnected_witness :
    cache_get_json ⟨none⟩ "search-result:v3:h" = Except.ok none
    ∧ cache_set_json ⟨none⟩ "search-result:v3:h" ⟨[], []⟩ 180
      = Except.ok ⟨none⟩
    ∧ ((search_worker_run ⟨none⟩ "h" wQuery [] wRates (fun _ => true)
          5 0 50 180).error_message = some "No valid connectors requested"
        ∨ (search_worker_run ⟨none⟩ "h" wQuery [] wRates (fun _ => true)
          5 0 50 180).error_message = some "FX rate unavailable")
    ∧ cache_connect none true ⟨[], true⟩ = ⟨none⟩
    ∧ cache_connect (some "redis-url") false ⟨[], true⟩ = ⟨none⟩ :=
  ⟨(cache_soft_fail_unconnected ⟨none⟩ rfl).1 "search-result:v3:h",
   (cache_soft_fail_unconnected ⟨none⟩ rfl).2.1 "search-result:v3:h" ⟨[], []⟩ 180,
   (cache_soft_fail_unconnected ⟨none⟩ rfl).2.2.1 "h" wQuery [] wRates
     (fun _ => true) 5 0 50 180 rfl,
   (cache_soft_fail_unconnected ⟨none⟩ rfl).2.2.2.1 true ⟨[], true⟩,
   (cache_soft_fail_unconnected ⟨none⟩ rfl).2.2.2.2 "redis-url" ⟨[], true⟩⟩
